import Mathlib

/-!
Verification of `src/update_local_repo.py` (parallel chunked downloader with
SHA-256 integrity verification) against its natural-language specification.

The Python program is shallowly embedded below.  Modelling conventions:

* Python `str` is modelled as `List Char` (called `Str` here); `str.endswith`,
  `str.startswith`, slicing `s[7:]` and `.lower()` become executable list
  operations so that concrete runs reduce inside the kernel.
* The destination file on disk is modelled as a `List Nat` of bytes; the byte
  values themselves are unconstrained naturals.
* The SHA-256 function `hashlib.sha256` is an abstract parameter
  `sha : List Nat → Str` of every definition that hashes: the incremental
  `sha256.update` loop over 8192-byte reads in `compute_sha256` is
  observationally the hash of the whole file content, so the model applies
  `sha` to the whole content.  No theorem below depends on properties of the
  concrete SHA-256 compression function.
* Network traffic is modelled by the data the server hands each request: the
  size-discovery response is an `Except Unit Nat` (error / Content-Length),
  and each ranged GET's response is a `ChunkResp`: the successive bodies the
  `response.read(8192)` loop returns, plus an optional transport error
  (`urllib.error.HTTPError`, `urllib.error.URLError`, `IOError`, or any other
  exception) terminating the stream.
* The four chunk fetchers run in `ThreadPoolExecutor` threads, but every
  write to the shared file happens under the single `threading.Lock` and the
  planned ranges target the byte offsets carried by each fetcher itself, so
  the final file content equals the content produced by running the fetchers
  sequentially in any order; the model runs them in list order.
* Everything after the two `download_file` calls in the module-level script
  (placement into /var/local/citrix-repo, createrepo_c, the .repo file copy)
  is outside the claims and not modelled.
-/

namespace UpdateLocalRepo

/-- Python strings of this program are modelled as lists of characters. -/
abbrev Str := List Char

/-- Model of `str.lower()`: lower-case every character. -/
def pyLower (s : Str) : Str := s.map Char.toLower

/-- Model of `filename.endswith(suffix)`. -/
def pyEndsWith (s suffix : Str) : Bool := List.isSuffixOf suffix s

/-- Model of `digest.startswith(p)`. -/
def pyStartsWith (s p : Str) : Bool := List.isPrefixOf p s

/-- One GitHub release asset as seen by `get_expected_hashes_from_api`:
`asset.get('name', '')` and `asset.get('digest', '')`. -/
structure Asset where
  name : Str
  digest : Str
deriving DecidableEq

/-- Condition under which line 29 `expected_hashes[filename] = hash_value`
runs: the asset name ends in `.rpm` (line 25) and its digest starts with
`sha256:` (line 27).  Assets failing either test are only logged. -/
def assetOk (a : Asset) : Bool :=
  pyEndsWith a.name ".rpm".data && pyStartsWith a.digest "sha256:".data

/-- Value stored for an accepted asset: `digest[7:].lower()` (line 28). -/
def hashValue (a : Asset) : Str := pyLower (a.digest.drop 7)

/-- The `expected_hashes` dict built by the loop at lines 23-32, modelled as
the list of insertions in program order.  A Python dict assignment with a
repeated key overwrites, so lookup below takes the *last* matching entry;
membership and emptiness agree with the dict's. -/
def buildHashes (assets : List Asset) : List (Str × Str) :=
  assets.foldl (fun m a => if assetOk a then m ++ [(a.name, hashValue a)] else m) []

/-- Dict lookup, last insertion wins (Python dict overwrite semantics). -/
def lookupD : List (Str × Str) → Str → Option Str
  | [], _ => none
  | p :: ps, k =>
    match lookupD ps k with
    | some v => some v
    | none => if p.1 = k then some p.2 else none

/-- Model of `get_expected_hashes_from_api` (lines 15-48).  The input is the
already-parsed API response: `.error ()` when `urllib.request.urlopen` or
`json.loads` raised (`URLError`, `JSONDecodeError`, or any other exception —
all three handlers log and re-raise, lines 40-48), `.ok assets` otherwise.
The function returns the built dict, empty or not; the emptiness check that
aborts the run lives at module level (lines 152-153). -/
def get_expected_hashes_from_api (meta : Except Unit (List Asset)) :
    Except Unit (List (Str × Str)) :=
  match meta with
  | .error e => .error e
  | .ok assets => .ok (buildHashes assets)

/-- Model of `compute_sha256` (lines 50-63) given the bytes the reads
delivered: `none` models the `IOError` branch that logs and returns `None`;
otherwise the incremental 8192-byte `sha256.update` loop hashes the whole
content and the function returns `sha256.hexdigest().lower()`. -/
def compute_sha256 (sha : List Nat → Str) : Option (List Nat) → Option Str
  | none => none
  | some content => some (pyLower (sha content))

/-- Transport-level error classes caught at lines 83-90 of
`download_chunk`: `HTTPError`, `URLError`, `IOError`, generic `Exception`. -/
inductive FetchErr
  | http
  | url
  | io
  | other
deriving DecidableEq

/-- What the server returns for one ranged GET: the successive non-empty
bodies produced by the `response.read(8192)` loop (each at most 8192 bytes
for a faithful server), then optionally a transport error that ended the
request (at the GET itself when `chunks = []`, or mid-stream). -/
structure ChunkResp where
  chunks : List (List Nat)
  err : Option FetchErr
deriving DecidableEq

/-- Read increment used by both `download_chunk` and `compute_sha256`
(lines 56 and 71): `chunk_size = 8192`. -/
def chunk_size : Nat := 8192

/-- Model of `file.seek(off)` followed by `file.write(bytes)` on a file
opened `r+b` (lines 78-80): bytes `off .. off + |bytes| - 1` are replaced,
the rest of the file is untouched; seeking past the end zero-fills. -/
def writeAt (file : List Nat) (off : Nat) (bytes : List Nat) : List Nat :=
  file.take off ++ List.replicate (off - file.length) 0 ++ bytes
    ++ file.drop (off + bytes.length)

/-- Model of `download_chunk` (lines 65-90).  The fold is the
`while True: chunk = response.read(chunk_size)` loop: the k-th increment is
written at absolute offset `start + downloaded_before_it` (line 79), under
the lock.  The `rangeStop` argument is the `end` parameter: it only shapes
the `Range: bytes=start-end` request header (already reflected in `resp`)
and the log strings.  Crucially, all four `except` handlers at lines 83-90
merely log: whether `resp.err` is `some` or `none`, the function returns
normally and no error reaches the caller — the result does not inspect
`resp.err` at all, mirroring the swallowed exceptions. -/
def download_chunk (resp : ChunkResp) (start : Nat) (rangeStop : Int)
    (file : List Nat) : List Nat :=
  (resp.chunks.foldl
    (fun acc c => (writeAt acc.1 (start + acc.2) c, acc.2 + c.length))
    (file, 0)).1

/-- Start of range `i` in `download_file` line 108: `i * chunk_size` with
`chunk_size = total_size // num_threads` (line 107). -/
def rangeStart (total n i : Nat) : Nat := i * (total / n)

/-- Inclusive final offset of range `i` (lines 108-109):
`(i+1)*chunk_size - 1` for all but the last range, else `total_size - 1`.
Python subtraction can go to `-1` when `total_size // num_threads = 0`, so
the model uses `Int`. -/
def rangeStop (total n i : Nat) : Int :=
  if i < n - 1 then ((i + 1) * (total / n) : Nat) - 1 else (total : Int) - 1

/-- The `ranges` list of lines 107-109. -/
def planRanges (total n : Nat) : List (Nat × Int) :=
  (List.range n).map (fun i => (rangeStart total n i, rangeStop total n i))

/-- Membership of byte offset `k` in the inclusive range `r`; a range whose
stop lies below its start contains nothing. -/
def inRange (r : Nat × Int) (k : Nat) : Prop :=
  (r.1 : Int) ≤ (k : Int) ∧ (k : Int) ≤ r.2

instance (r : Nat × Int) (k : Nat) : Decidable (inRange r k) :=
  inferInstanceAs (Decidable (And _ _))

/-- The `ThreadPoolExecutor` block of lines 112-116: one `download_chunk`
per planned range, fetcher `i` answering with `resp i`.  Ranges are
pairwise disjoint and every write is lock-serialized, so the final content
is independent of thread interleaving and is modelled by a left fold. -/
def runFetchers (resp : Nat → ChunkResp) (ranges : List (Nat × Int))
    (file : List Nat) : List Nat :=
  (ranges.enum.foldl
    (fun f p => download_chunk (resp p.1) p.2.1 p.2.2 f) file)

/-- Terminal outcome of one `download_file` call: `verified` is the normal
return after line 132; every other constructor is a raised exception, named
after the `raise` that produces it (lines 97, 125, 129, 131) or the
re-raised transport error of the size-discovery request (lines 134-145). -/
inductive DlResult
  | netError
  | sizeError
  | missingDigest
  | hashReadError
  | hashMismatch
  | verified
deriving DecidableEq

/-- Observable outcome of `download_file`: whether line 120 printed
`File downloaded successfully`, how many chunk fetchers were submitted,
the destination file's final content (`none` when the function aborted
before `open(save_path, 'wb')` at line 101), and the result. -/
structure DlOutcome where
  printedSuccess : Bool
  launched : Nat
  file : Option (List Nat)
  result : DlResult
deriving DecidableEq

/-- Verification tail of `download_file` (lines 123-132): dict membership
check on the basename, `compute_sha256`, `None` check, equality check. -/
def verifyStep (sha : List Nat → Str) (hashes : List (Str × Str))
    (filename : Str) (ioFail : Bool) (final : List Nat) : DlResult :=
  match lookupD hashes filename with
  | none => .missingDigest
  | some expected =>
    match compute_sha256 sha (if ioFail then none else some final) with
    | none => .hashReadError
    | some computed => if computed = expected then .verified else .hashMismatch

/-- Model of `download_file` (lines 92-145).  `sizeResp` is the
size-discovery request: `.error ()` when `urlopen` raised (re-raised at
lines 134-145), `.ok total` when it returned with `Content-Length` `total`
(`0` also stands for an absent header, the `getheader` default).  On
`total = 0` the `ValueError` of line 97 aborts before the file is created
and before any fetcher is launched.  Otherwise the file is truncated to
exactly `total` zero bytes (lines 100-102), the planned ranges are fetched,
line 120 prints the success message unconditionally (chunk errors were
swallowed inside `download_chunk`), and the verification tail runs.
`filename` is `os.path.basename(save_path)`; `ioFail` selects the
`IOError` branch of `compute_sha256`. -/
def download_file (sha : List Nat → Str) (sizeResp : Except Unit Nat)
    (resp : Nat → ChunkResp) (hashes : List (Str × Str)) (filename : Str)
    (ioFail : Bool) (num_threads : Nat) : DlOutcome :=
  match sizeResp with
  | .error _ => ⟨false, 0, none, .netError⟩
  | .ok total =>
    if total = 0 then ⟨false, 0, none, .sizeError⟩
    else
      let final := runFetchers resp (planRanges total num_threads)
        (List.replicate total 0)
      ⟨true, num_threads, some final,
        verifyStep sha hashes filename ioFail final⟩

/-- Inputs of one module-level `download_file` call. -/
structure DlInput where
  sizeResp : Except Unit Nat
  resp : Nat → ChunkResp
  filename : Str
  ioFail : Bool

/-- Error that ends the module-level script (lines 151-160): the exception
propagating out of `get_expected_hashes_from_api`, the explicit raise at
line 153 when the dict is empty, or the exception re-raised by the first or
second `download_file` call. -/
inductive BatchErr
  | metadata
  | noDigests
  | artifact1 (r : DlResult)
  | artifact2 (r : DlResult)
deriving DecidableEq

/-- Observable outcome of the module-level batch: how many `download_file`
calls were made and the error that killed the script, if any. -/
structure BatchOutcome where
  attempted : Nat
  err : Option BatchErr
deriving DecidableEq

/-- Model of the module-level script, lines 151-160: fetch the digest dict
(an exception aborts with nothing downloaded), abort if it is empty, then
run the two `download_file` calls in order.  There is no `try` around
either call, so the first raised exception ends the script and later
artifacts are never attempted. -/
def runBatch (sha : List Nat → Str) (meta : Except Unit (List Asset))
    (dl1 dl2 : DlInput) : BatchOutcome :=
  match get_expected_hashes_from_api meta with
  | .error _ => ⟨0, some .metadata⟩
  | .ok hashes =>
    if hashes.isEmpty then ⟨0, some .noDigests⟩
    else
      let o1 := download_file sha dl1.sizeResp dl1.resp hashes dl1.filename
        dl1.ioFail 4
      if o1.result = .verified then
        let o2 := download_file sha dl2.sizeResp dl2.resp hashes dl2.filename
          dl2.ioFail 4
        if o2.result = .verified then ⟨2, none⟩
        else ⟨2, some (.artifact2 o2.result)⟩
      else ⟨1, some (.artifact1 o1.result)⟩

/-! Concrete scenarios used by counterexamples and witnesses.  They all
download an 8-byte artifact with the default 4 fetchers, so the planned
ranges are `(0,1), (2,3), (4,5), (6,7)`. -/

/-- Hash function for the C1 scenario: a constant digest that differs from
the stored one, so verification ends in a mismatch. -/
def c1sha : List Nat → Str := fun _ => "00".data

/-- Responses for the C1 scenario: fetcher 0's ranged GET fails with an
HTTP error (e.g. a 416) and delivers nothing; the other three ranges
succeed. -/
def c1resp : Nat → ChunkResp := fun i =>
  if i = 0 then ⟨[], some .http⟩
  else if i = 1 then ⟨[[3, 4]], none⟩
  else if i = 2 then ⟨[[5, 6]], none⟩
  else ⟨[[7, 8]], none⟩

/-- Responses for the C2 scenario: fetcher 0 streams its complete range and
only then hits a transport error; the other ranges succeed, so the final
file holds the full intended content `[1,...,8]`. -/
def c2resp : Nat → ChunkResp := fun i =>
  if i = 0 then ⟨[[1, 2]], some .url⟩
  else if i = 1 then ⟨[[3, 4]], none⟩
  else if i = 2 then ⟨[[5, 6]], none⟩
  else ⟨[[7, 8]], none⟩

/-- Intended content of the C2 scenario's artifact. -/
def c2content : List Nat := [1, 2, 3, 4, 5, 6, 7, 8]

/-- Hash function for the C6 scenario: the first artifact's full content
`[1,...,8]` hashes to `aa`, the second artifact's content `[8,...,1]` to
`bb`, anything else (in particular the gap-damaged first file) to `00`. -/
def c6sha : List Nat → Str := fun l =>
  if l = [1, 2, 3, 4, 5, 6, 7, 8] then "aa".data
  else if l = [8, 7, 6, 5, 4, 3, 2, 1] then "bb".data
  else "00".data

/-- Release assets of the C6 scenario: digests for both artifacts. -/
def c6assets : List Asset :=
  [⟨"a.rpm".data, "sha256:AA".data⟩, ⟨"b.rpm".data, "sha256:BB".data⟩]

/-- First artifact of the C6 scenario: fetcher 1 fails with an HTTP error,
the other three ranges succeed, leaving zeros at offsets 2-3. -/
def c6resp1 : Nat → ChunkResp := fun i =>
  if i = 0 then ⟨[[1, 2]], none⟩
  else if i = 1 then ⟨[], some .http⟩
  else if i = 2 then ⟨[[5, 6]], none⟩
  else ⟨[[7, 8]], none⟩

/-- Second artifact of the C6 scenario: all four ranges succeed and the
assembled content `[8,...,1]` matches its stored digest. -/
def c6resp2 : Nat → ChunkResp := fun i =>
  if i = 0 then ⟨[[8, 7]], none⟩
  else if i = 1 then ⟨[[6, 5]], none⟩
  else if i = 2 then ⟨[[4, 3]], none⟩
  else ⟨[[2, 1]], none⟩

/-- `download_file` inputs of the C6 scenario's first artifact. -/
def c6dl1 : DlInput := ⟨.ok 8, c6resp1, "a.rpm".data, false⟩

/-- `download_file` inputs of the C6 scenario's second artifact. -/
def c6dl2 : DlInput := ⟨.ok 8, c6resp2, "b.rpm".data, false⟩

/-- Claim C1 — code bug exhibit.  One of four fetchers hits an HTTP error
(range 0 of an 8-byte artifact) while the other three ranges succeed.  The
claim says the fetcher reports a `FetchError`, download_file does not
report success, and the artifact fails.  The code instead swallows the
exception inside `download_chunk`, prints `File downloaded successfully`
(here: `printedSuccess = true`), and the failure that eventually surfaces
is a hash-mismatch exception from the verification tail, not a fetch
error. -/
theorem c1_fetch_error_swallowed :
    (c1resp 0).err = some .http ∧
    (download_file c1sha (.ok 8) c1resp [("f.rpm".data, "ff".data)]
        "f.rpm".data false 4).printedSuccess = true ∧
    (download_file c1sha (.ok 8) c1resp [("f.rpm".data, "ff".data)]
        "f.rpm".data false 4).result = .hashMismatch := by
  decide

/-- Claim C2 — code bug exhibit.  For every hash function: a download in
which fetcher 0 streams its complete range and then reports a transport
error (`URLError` after the final read) still ends `verified`, because
`download_chunk` swallows the error and the assembled bytes match the
stored digest.  The claim's condition (a) — no fetcher error — is not
enforced by the code; only the digest comparison (b) is. -/
theorem c2_verified_despite_fetch_error (sha : List Nat → Str) :
    (c2resp 0).err = some .url ∧
    (download_file sha (.ok 8) c2resp
        [("f.rpm".data, pyLower (sha c2content))]
        "f.rpm".data false 4).result = .verified := by
  refine ⟨rfl, ?_⟩
  have hF : runFetchers c2resp (planRanges 8 4) [0, 0, 0, 0, 0, 0, 0, 0]
      = c2content := by decide
  simp [download_file, verifyStep, compute_sha256, lookupD, hF]

/-- Claim C5: a metadata-layer failure (exception from
`get_expected_hashes_from_api`) or an empty digest dict aborts the batch
with zero `download_file` calls attempted: no download starts without
verification material. -/
theorem c5_metadata_failure_aborts_batch (sha : List Nat → Str)
    (dl1 dl2 : DlInput) :
    runBatch sha (.error ()) dl1 dl2 = ⟨0, some .metadata⟩ ∧
    (∀ assets : List Asset, buildHashes assets = [] →
      runBatch sha (.ok assets) dl1 dl2 = ⟨0, some .noDigests⟩) := by
  refine ⟨rfl, fun assets h => ?_⟩
  simp [runBatch, get_expected_hashes_from_api, h]

/-- Witness for C5 at a concrete metadata response that contains assets but
no usable digest entry (a non-RPM file and an RPM with a non-SHA-256
digest): the batch aborts with nothing attempted. -/
theorem c5_witness :
    buildHashes [⟨"notes.txt".data, "sha256:ff".data⟩,
      ⟨"a.rpm".data, "md5:ff".data⟩] = [] ∧
    runBatch c1sha
      (.ok [⟨"notes.txt".data, "sha256:ff".data⟩,
        ⟨"a.rpm".data, "md5:ff".data⟩]) c6dl1 c6dl2 =
      ⟨0, some .noDigests⟩ :=
  ⟨by decide,
    (c5_metadata_failure_aborts_batch c1sha c6dl1 c6dl2).2 _ (by decide)⟩

/-- Claim C6 — counterexample.  In the C6 scenario the first artifact's
range 1 fails with an HTTP error while everything about the second
artifact is healthy (it would verify, third conjunct).  The claim says the
sibling artifact is still downloaded and the batch reports per-artifact
outcomes; the code instead lets the first artifact's raised exception kill
the script: only one `download_file` call is ever attempted. -/
theorem c6_batch_abort_counterexample :
    (c6resp1 1).err = some .http ∧
    runBatch c6sha (.ok c6assets) c6dl1 c6dl2 =
      ⟨1, some (.artifact1 .hashMismatch)⟩ ∧
    (download_file c6sha c6dl2.sizeResp c6dl2.resp (buildHashes c6assets)
        c6dl2.filename c6dl2.ioFail 4).result = .verified ∧
    ¬ (runBatch c6sha (.ok c6assets) c6dl1 c6dl2).attempted = 2 := by
  decide

/-- Claim C6 as amended: a failure confined to the first artifact's
download-and-verify cycle (any non-`verified` outcome) aborts the whole
batch — the raised exception propagates, the sibling artifact is never
attempted, and the batch outcome is the single propagated error rather
than a sequence of per-artifact results. -/
theorem c6_artifact_failure_aborts_batch (sha : List Nat → Str)
    (assets : List Asset) (dl1 dl2 : DlInput)
    (hne : buildHashes assets ≠ [])
    (hfail : (download_file sha dl1.sizeResp dl1.resp (buildHashes assets)
        dl1.filename dl1.ioFail 4).result ≠ .verified) :
    runBatch sha (.ok assets) dl1 dl2 =
      ⟨1, some (.artifact1 (download_file sha dl1.sizeResp dl1.resp
        (buildHashes assets) dl1.filename dl1.ioFail 4).result)⟩ := by
  have hE : (buildHashes assets).isEmpty = false := by
    simpa [List.isEmpty_iff] using hne
  simp [runBatch, get_expected_hashes_from_api, hE, hfail]

/-- Witness for the amended C6 at the concrete C6 scenario. -/
theorem c6_artifact_failure_aborts_batch_witness :
    runBatch c6sha (.ok c6assets) c6dl1 c6dl2 =
      ⟨1, some (.artifact1 .hashMismatch)⟩ :=
  c6_artifact_failure_aborts_batch c6sha c6assets c6dl1 c6dl2
    (by decide) (by decide)

/-- Claim C8: when size discovery reports no size (absent `Content-Length`
or zero), `download_file` raises the `ValueError` of line 97 before the
destination file is created (`file = none`) and before any fetcher is
launched (`launched = 0`); when it reports a positive size, the
destination file is the zero-filled allocation of exactly `total` bytes
and the fetchers run on it. -/
theorem c8_size_discovery_gate (sha : List Nat → Str)
    (resp : Nat → ChunkResp) (hashes : List (Str × Str)) (filename : Str)
    (ioFail : Bool) (n : Nat) :
    download_file sha (.ok 0) resp hashes filename ioFail n =
      ⟨false, 0, none, .sizeError⟩ ∧
    (∀ total : Nat, 0 < total →
      download_file sha (.ok total) resp hashes filename ioFail n =
        ⟨true, n,
          some (runFetchers resp (planRanges total n)
            (List.replicate total 0)),
          verifyStep sha hashes filename ioFail
            (runFetchers resp (planRanges total n)
              (List.replicate total 0))⟩ ∧
      (List.replicate total (0 : Nat)).length = total) := by
  refine ⟨rfl, fun total ht => ⟨?_, by simp⟩⟩
  simp [download_file, Nat.pos_iff_ne_zero.mp ht]

/-- Witness for C8 at a concrete 3-byte download with 2 fetchers, the
first of which fails: the file is allocated to 3 zero bytes and the
fetched bytes land at offsets 1-2. -/
theorem c8_size_discovery_gate_witness :
    0 < 3 ∧
    download_file c1sha (.ok 3) c1resp [] "x.rpm".data false 2 =
      ⟨true, 2, some [0, 3, 4], .missingDigest⟩ :=
  ⟨by decide,
    ((c8_size_discovery_gate c1sha c1resp [] "x.rpm".data false 2).2 3
      (by decide)).1⟩

/-- Helper: the dict built by `buildHashes` is, as a list of insertions,
the qualifying assets in order, each paired with its transformed digest. -/
theorem buildHashes_eq_filterMap (assets : List Asset) :
    buildHashes assets =
      (assets.filter assetOk).map (fun a => (a.name, hashValue a)) := by
  suffices h : ∀ (l : List Asset) (m : List (Str × Str)),
      l.foldl (fun m a => if assetOk a then m ++ [(a.name, hashValue a)]
        else m) m =
      m ++ (l.filter assetOk).map (fun a => (a.name, hashValue a)) by
    simpa [buildHashes] using h assets []
  intro l
  induction l with
  | nil => simp
  | cons a as ih =>
    intro m
    by_cases ha : assetOk a
    · simp [ha, ih, List.filter_cons]
    · simp [ha, ih, List.filter_cons]

/-- Claim C4: the verification tail marks an artifact `verified` only when
the stored digest for the file's basename exists and equals the lower-cased
computed digest of the final file content; a missing dict entry is never
`verified` (it raises the line-125 exception), and a digest mismatch raises
the line-131 exception. -/
theorem c4_verification_spec (sha : List Nat → Str)
    (sizeResp : Except Unit Nat) (resp : Nat → ChunkResp)
    (hashes : List (Str × Str)) (filename : Str) (ioFail : Bool) (n : Nat) :
    ((download_file sha sizeResp resp hashes filename ioFail n).result
        = .verified →
      ∃ f h, (download_file sha sizeResp resp hashes filename ioFail n).file
          = some f ∧
        lookupD hashes filename = some h ∧ pyLower (sha f) = h) ∧
    (lookupD hashes filename = none →
      (download_file sha sizeResp resp hashes filename ioFail n).result
        ≠ .verified) ∧
    (∀ f h,
      (download_file sha sizeResp resp hashes filename ioFail n).file
        = some f →
      lookupD hashes filename = some h → ioFail = false →
      pyLower (sha f) ≠ h →
      (download_file sha sizeResp resp hashes filename ioFail n).result
        = .hashMismatch) := by
  cases sizeResp with
  | error e => simp [download_file]
  | ok total =>
    by_cases h0 : total = 0
    · simp [download_file, h0]
    · cases hL : lookupD hashes filename with
      | none =>
        simp [download_file, h0, verifyStep, hL]
      | some expected =>
        cases ioFail with
        | true =>
          simp [download_file, h0, verifyStep, hL, compute_sha256]
        | false =>
          by_cases hc :
              pyLower (sha (runFetchers resp (planRanges total n)
                (List.replicate total 0))) = expected
          · simp [download_file, h0, verifyStep, hL, compute_sha256, hc]
          · simp [download_file, h0, verifyStep, hL, compute_sha256, hc]

/-- Witness for C4: with an empty digest store, a completed concrete
download is not `verified` (it ends in the missing-entry failure). -/
theorem c4_verification_spec_witness :
    (download_file c1sha (.ok 8) c1resp [] "f.rpm".data false 4).result
      ≠ .verified :=
  (c4_verification_spec c1sha (.ok 8) c1resp [] "f.rpm".data false 4).2.1
    rfl

/-- Claim C9: the digest dict contains exactly the assets whose name ends
in `.rpm` and whose digest starts with `sha256:`; every entry comes from
such an asset and carries `digest[7:].lower()`, and every such asset
contributes its entry. -/
theorem c9_buildHashes_spec (assets : List Asset) :
    (∀ p : Str × Str, p ∈ buildHashes assets →
      ∃ a ∈ assets, a.name = p.1 ∧
        pyEndsWith a.name ".rpm".data = true ∧
        pyStartsWith a.digest "sha256:".data = true ∧
        p.2 = pyLower (a.digest.drop 7)) ∧
    (∀ a ∈ assets, pyEndsWith a.name ".rpm".data = true →
      pyStartsWith a.digest "sha256:".data = true →
      (a.name, pyLower (a.digest.drop 7)) ∈ buildHashes assets) := by
  constructor
  · intro p hp
    rw [buildHashes_eq_filterMap] at hp
    obtain ⟨a, ha, hpa⟩ := List.mem_map.mp hp
    obtain ⟨hmem, hok⟩ := List.mem_filter.mp ha
    simp only [assetOk, Bool.and_eq_true] at hok
    obtain ⟨h1, h2⟩ := hok
    exact ⟨a, hmem, by rw [← hpa], h1, h2, by rw [← hpa]; rfl⟩
  · intro a ha h1 h2
    rw [buildHashes_eq_filterMap]
    exact List.mem_map.mpr
      ⟨a, List.mem_filter.mpr ⟨ha, by simp [assetOk, h1, h2]⟩, rfl⟩

/-- Witness for C9 at a concrete asset list: the `.txt` asset is skipped
and the qualifying `.rpm` asset's lower-cased digest value is present. -/
theorem c9_buildHashes_spec_witness :
    pyEndsWith "a.rpm".data ".rpm".data = true ∧
    pyStartsWith "sha256:AB".data "sha256:".data = true ∧
    ("a.rpm".data, pyLower ("sha256:AB".data.drop 7)) ∈
      buildHashes [⟨"notes.txt".data, "sha256:ff".data⟩,
        ⟨"a.rpm".data, "sha256:AB".data⟩] :=
  ⟨by decide, by decide,
    (c9_buildHashes_spec [⟨"notes.txt".data, "sha256:ff".data⟩,
        ⟨"a.rpm".data, "sha256:AB".data⟩]).2
      ⟨"a.rpm".data, "sha256:AB".data⟩ (by decide) (by decide) (by decide)⟩

/-- Helper: a positioned write that stays inside the file replaces exactly
the bytes `off .. off + |bytes| - 1` and nothing else. -/
theorem writeAt_inside (file : List Nat) (off : Nat) (bytes : List Nat)
    (h : off + bytes.length ≤ file.length) :
    writeAt file off bytes =
      file.take off ++ bytes ++ file.drop (off + bytes.length) := by
  have h0 : off - file.length = 0 := by omega
  simp [writeAt, h0]

/-- Helper: an inside write preserves the file length. -/
theorem writeAt_length (file : List Nat) (off : Nat) (bytes : List Nat)
    (h : off + bytes.length ≤ file.length) :
    (writeAt file off bytes).length = file.length := by
  rw [writeAt_inside file off bytes h]
  simp only [List.length_append, List.length_take, List.length_drop]
  omega

/-- Helper: the read-write loop of `download_chunk`, started with
`downloaded = d`, deposits the concatenation of the increments at offsets
`start + d .. start + d + bodyLength - 1` and leaves every other byte of
the file unchanged; the counter ends at `d` plus the body length. -/
theorem download_chunk_fold (start : Nat) (cs : List (List Nat)) :
    ∀ (file : List Nat) (d : Nat),
      start + d + cs.flatten.length ≤ file.length →
      (cs.foldl
        (fun acc c => (writeAt acc.1 (start + acc.2) c, acc.2 + c.length))
        (file, d)).1 =
          file.take (start + d) ++ cs.flatten
            ++ file.drop (start + d + cs.flatten.length) ∧
      (cs.foldl
        (fun acc c => (writeAt acc.1 (start + acc.2) c, acc.2 + c.length))
        (file, d)).2 = d + cs.flatten.length := by
  induction cs with
  | nil =>
    intro file d h
    simp
  | cons c cs ih =>
    intro file d h
    have hflat : (c :: cs).flatten.length = c.length + cs.flatten.length := by
      simp
    have hle : start + d + c.length ≤ file.length := by omega
    have hw : writeAt file (start + d) c =
        file.take (start + d) ++ c ++ file.drop (start + d + c.length) :=
      writeAt_inside _ _ _ hle
    have hwlen : (writeAt file (start + d) c).length = file.length :=
      writeAt_length _ _ _ hle
    have hih := ih (writeAt file (start + d) c) (d + c.length)
      (by rw [hwlen]; omega)
    have hpre : ((file.take (start + d) ++ c).length) = start + d + c.length := by
      simp only [List.length_append, List.length_take]
      omega
    simp only [List.foldl_cons] at *
    constructor
    · rw [hih.1, hw]
      have htake :
          ((file.take (start + d) ++ c) ++ file.drop (start + d + c.length)).take
              (start + (d + c.length)) = file.take (start + d) ++ c :=
        List.take_left' (by omega)
      have hdropA :
          ((file.take (start + d) ++ c) ++ file.drop (start + d + c.length)).drop
              (start + (d + c.length) + cs.flatten.length) =
            file.drop (start + d + c.length + cs.flatten.length) := by
        have h1 :
            ((file.take (start + d) ++ c)
              ++ file.drop (start + d + c.length)).drop
                (start + d + c.length) = file.drop (start + d + c.length) :=
          List.drop_left' (by omega)
        calc ((file.take (start + d) ++ c)
                ++ file.drop (start + d + c.length)).drop
                  (start + (d + c.length) + cs.flatten.length)
            = (((file.take (start + d) ++ c)
                ++ file.drop (start + d + c.length)).drop
                  (start + d + c.length)).drop cs.flatten.length := by
              rw [List.drop_drop]
              congr 1
              omega
          _ = (file.drop (start + d + c.length)).drop cs.flatten.length := by
              rw [h1]
          _ = file.drop (start + d + c.length + cs.flatten.length) := by
              rw [List.drop_drop]
      rw [htake, hdropA]
      have hidx : start + d + c.length + cs.flatten.length =
          start + d + (c :: cs).flatten.length := by
        rw [hflat]; omega
      rw [hidx]
      simp [List.append_assoc]
    · rw [hih.2]
      omega

/-- Claim C7: a chunk fetch whose response streams in increments of at most
`chunk_size = 8192` bytes and ends without a transport error writes the
k-th increment at absolute offset `start` plus the bytes written by the
preceding increments, so that after the fetch the response body occupies
exactly offsets `start .. start + bodyLength - 1` of the destination file
and every byte outside that window is untouched. -/
theorem c7_download_chunk_writes_body (resp : ChunkResp) (start : Nat)
    (rangeStop : Int) (file : List Nat)
    (hwf : ∀ c ∈ resp.chunks, c.length ≤ chunk_size)
    (herr : resp.err = none)
    (hfit : start + resp.chunks.flatten.length ≤ file.length) :
    download_chunk resp start rangeStop file =
      file.take start ++ resp.chunks.flatten
        ++ file.drop (start + resp.chunks.flatten.length) ∧
    (download_chunk resp start rangeStop file).length = file.length := by
  have h := download_chunk_fold start resp.chunks file 0 (by omega)
  constructor
  · rw [download_chunk, h.1]
    simp
  · rw [download_chunk, h.1]
    simp only [List.length_append, List.length_take, List.length_drop]
    omega

/-- Witness for C7: a two-increment body `[5] ++ [6,7]` fetched for the
range starting at offset 2 of an 8-byte zero file lands at offsets 2-4. -/
theorem c7_download_chunk_writes_body_witness :
    download_chunk ⟨[[5], [6, 7]], none⟩ 2 4 (List.replicate 8 0) =
      [0, 0, 5, 6, 7, 0, 0, 0] := by
  rw [(c7_download_chunk_writes_body ⟨[[5], [6, 7]], none⟩ 2 4
    (List.replicate 8 0) (by decide) rfl (by decide)).1]
  decide

/-- Helper: the planner always emits one range per worker. -/
theorem planRanges_length (total n : Nat) : (planRanges total n).length = n := by
  simp [planRanges]

/-- Helper: the i-th planned range is `(rangeStart i, rangeStop i)`. -/
theorem planRanges_get (total n i : Nat)
    (hi : i < (planRanges total n).length) :
    (planRanges total n).get ⟨i, hi⟩ =
      (rangeStart total n i, rangeStop total n i) := by
  simp [planRanges]

/-- Helper: `workerCount * floor(total / workerCount) ≤ total`. -/
theorem total_div_mul_le (total n : Nat) : n * (total / n) ≤ total := by
  have h := Nat.div_add_mod total n
  omega

/-- Helper: every byte offset below `total` lies in some planned range. -/
theorem ranges_cover (total n : Nat) (hn : 1 ≤ n) (k : Nat) (hk : k < total) :
    ∃ i, i < n ∧ inRange (rangeStart total n i, rangeStop total n i) k := by
  have hlast : n - 1 < n :=
    Nat.sub_lt (Nat.lt_of_lt_of_le Nat.one_pos hn) Nat.one_pos
  by_cases hcs : total / n = 0
  · refine ⟨n - 1, hlast, ?_⟩
    simp only [inRange, rangeStart, rangeStop, if_neg (lt_irrefl (n - 1))]
    constructor
    · simp [hcs]
    · rw [Int.le_sub_one_iff]
      exact_mod_cast hk
  · by_cases hql : k / (total / n) < n - 1
    · refine ⟨k / (total / n), lt_of_lt_of_le hql (Nat.sub_le n 1), ?_⟩
      simp only [inRange, rangeStart, rangeStop, if_pos hql]
      have h1 : k / (total / n) * (total / n) ≤ k :=
        Nat.div_mul_le_self k (total / n)
      have h2 : k < (k / (total / n) + 1) * (total / n) :=
        (Nat.div_lt_iff_lt_mul (Nat.pos_of_ne_zero hcs)).mp
          (Nat.lt_succ_self _)
      constructor
      · exact_mod_cast h1
      · rw [Int.le_sub_one_iff]
        exact_mod_cast h2
    · refine ⟨n - 1, hlast, ?_⟩
      simp only [inRange, rangeStart, rangeStop, if_neg (lt_irrefl (n - 1))]
      have h1 : k / (total / n) * (total / n) ≤ k :=
        Nat.div_mul_le_self k (total / n)
      have h2 : (n - 1) * (total / n) ≤ k / (total / n) * (total / n) :=
        Nat.mul_le_mul_right _ (Nat.le_of_not_lt hql)
      constructor
      · exact_mod_cast le_trans h2 h1
      · rw [Int.le_sub_one_iff]
        exact_mod_cast hk

/-- Helper: every offset inside a planned range lies below `total`. -/
theorem inRange_lt_total (total n : Nat) (hn : 1 ≤ n) (i : Nat) (hi : i < n)
    (k : Nat) (h : inRange (rangeStart total n i, rangeStop total n i) k) :
    k < total := by
  simp only [inRange, rangeStart, rangeStop] at h
  obtain ⟨h1, h2⟩ := h
  by_cases hil : i < n - 1
  · rw [if_pos hil, Int.le_sub_one_iff] at h2
    have h2n : k < (i + 1) * (total / n) := by exact_mod_cast h2
    have hle : (i + 1) * (total / n) ≤ n * (total / n) :=
      Nat.mul_le_mul_right _ (by omega)
    have htot := total_div_mul_le total n
    omega
  · rw [if_neg hil, Int.le_sub_one_iff] at h2
    exact_mod_cast h2

/-- Helper: two planned ranges with `i < j` share no byte offset. -/
theorem ranges_disjoint_of_lt (total n i j : Nat) (hj : j < n) (hij : i < j)
    (k : Nat) :
    ¬(inRange (rangeStart total n i, rangeStop total n i) k ∧
      inRange (rangeStart total n j, rangeStop total n j) k) := by
  intro h
  simp only [inRange, rangeStart, rangeStop] at h
  obtain ⟨⟨h1, h2⟩, h3, h4⟩ := h
  have hil : i < n - 1 := by omega
  rw [if_pos hil, Int.le_sub_one_iff] at h2
  have h2n : k < (i + 1) * (total / n) := by exact_mod_cast h2
  have h3n : j * (total / n) ≤ k := by exact_mod_cast h3
  have hle : (i + 1) * (total / n) ≤ j * (total / n) :=
    Nat.mul_le_mul_right _ (by omega)
  omega

/-- Claim C3: for `0 < total` and `1 ≤ workerCount ≤ total` the planned
ranges number exactly `workerCount`; range `i` starts at
`i * floor(total/workerCount)`; every non-final range has length
`floor(total/workerCount)`; the last range ends at `total - 1`; the ranges
are contiguous, pairwise non-overlapping, and their union is exactly
`[0, total)`. -/
theorem c3_planRanges_spec (total n : Nat) (h1 : 0 < total) (h2 : 1 ≤ n)
    (h3 : n ≤ total) :
    (planRanges total n).length = n ∧
    (∀ i, ∀ hi : i < (planRanges total n).length,
      ((planRanges total n).get ⟨i, hi⟩).1 = i * (total / n)) ∧
    (∀ i, ∀ hi : i < (planRanges total n).length, i < n - 1 →
      ((planRanges total n).get ⟨i, hi⟩).2
        - (((planRanges total n).get ⟨i, hi⟩).1 : Int) + 1
        = ((total / n : Nat) : Int)) ∧
    (∀ hl : n - 1 < (planRanges total n).length,
      ((planRanges total n).get ⟨n - 1, hl⟩).2 = (total : Int) - 1) ∧
    (∀ i, ∀ hi1 : i + 1 < (planRanges total n).length,
      ∀ hi : i < (planRanges total n).length,
      (((planRanges total n).get ⟨i + 1, hi1⟩).1 : Int)
        = ((planRanges total n).get ⟨i, hi⟩).2 + 1) ∧
    (∀ i j, ∀ hi : i < (planRanges total n).length,
      ∀ hj : j < (planRanges total n).length, i ≠ j → ∀ k : Nat,
      ¬(inRange ((planRanges total n).get ⟨i, hi⟩) k ∧
        inRange ((planRanges total n).get ⟨j, hj⟩) k)) ∧
    (∀ k : Nat, k < total ↔
      ∃ i, ∃ hi : i < (planRanges total n).length,
        inRange ((planRanges total n).get ⟨i, hi⟩) k) := by
  refine ⟨planRanges_length total n, ?_, ?_, ?_, ?_, ?_, ?_⟩
  · intro i hi
    rw [planRanges_get]
    rfl
  · intro i hi hil
    rw [planRanges_get]
    simp only [rangeStart, rangeStop, if_pos hil]
    push_cast
    ring
  · intro hl
    rw [planRanges_get]
    simp only [rangeStop, if_neg (lt_irrefl (n - 1))]
  · intro i hi1 hi
    rw [planRanges_get, planRanges_get]
    have hil : i < n - 1 := by rw [planRanges_length] at hi1; omega
    simp only [rangeStart, rangeStop, if_pos hil]
    push_cast
    ring
  · intro i j hi hj hij k
    rw [planRanges_get, planRanges_get]
    rw [planRanges_length] at hi hj
    rcases Nat.lt_or_ge i j with hlt | hge
    · exact ranges_disjoint_of_lt total n i j hj hlt k
    · have hlt : j < i := by omega
      intro h
      exact ranges_disjoint_of_lt total n j i hi hlt k ⟨h.2, h.1⟩
  · intro k
    constructor
    · intro hk
      obtain ⟨i, hin, hir⟩ := ranges_cover total n h2 k hk
      refine ⟨i, by rw [planRanges_length]; exact hin, ?_⟩
      rw [planRanges_get]
      exact hir
    · rintro ⟨i, hi, hir⟩
      rw [planRanges_get] at hir
      rw [planRanges_length] at hi
      exact inRange_lt_total total n h2 i hi k hir

/-- Witness for C3 at `total = 8`, `workerCount = 4`. -/
theorem c3_planRanges_spec_witness :
    0 < 8 ∧ 4 ≤ 8 ∧ (planRanges 8 4).length = 4 :=
  ⟨by decide, by decide,
    (c3_planRanges_spec 8 4 (by decide) (by decide) (by decide)).1⟩

/-- Claim C10: for every `total ≥ 1` and `workerCount ≥ 1`, including the
degenerate `workerCount > total` outside the spec's stated domain, the
last planned range still ends at `total - 1`, the ranges are pairwise
disjoint, their union is exactly `[0, total)`, and when
`workerCount > total` every non-final range is empty
(its stop lies below its start). -/
theorem c10_planRanges_degenerate_spec (total n : Nat) (h1 : 1 ≤ total)
    (h2 : 1 ≤ n) :
    (∀ hl : n - 1 < (planRanges total n).length,
      ((planRanges total n).get ⟨n - 1, hl⟩).2 = (total : Int) - 1) ∧
    (∀ i j, ∀ hi : i < (planRanges total n).length,
      ∀ hj : j < (planRanges total n).length, i ≠ j → ∀ k : Nat,
      ¬(inRange ((planRanges total n).get ⟨i, hi⟩) k ∧
        inRange ((planRanges total n).get ⟨j, hj⟩) k)) ∧
    (∀ k : Nat, k < total ↔
      ∃ i, ∃ hi : i < (planRanges total n).length,
        inRange ((planRanges total n).get ⟨i, hi⟩) k) ∧
    (total < n → ∀ i, ∀ hi : i < (planRanges total n).length, i < n - 1 →
      ((planRanges total n).get ⟨i, hi⟩).2
        < (((planRanges total n).get ⟨i, hi⟩).1 : Int)) := by
  refine ⟨?_, ?_, ?_, ?_⟩
  · intro hl
    rw [planRanges_get]
    simp only [rangeStop, if_neg (lt_irrefl (n - 1))]
  · intro i j hi hj hij k
    rw [planRanges_get, planRanges_get]
    rw [planRanges_length] at hi hj
    rcases Nat.lt_or_ge i j with hlt | hge
    · exact ranges_disjoint_of_lt total n i j hj hlt k
    · have hlt : j < i := by omega
      intro h
      exact ranges_disjoint_of_lt total n j i hi hlt k ⟨h.2, h.1⟩
  · intro k
    constructor
    · intro hk
      obtain ⟨i, hin, hir⟩ := ranges_cover total n h2 k hk
      refine ⟨i, by rw [planRanges_length]; exact hin, ?_⟩
      rw [planRanges_get]
      exact hir
    · rintro ⟨i, hi, hir⟩
      rw [planRanges_get] at hir
      rw [planRanges_length] at hi
      exact inRange_lt_total total n h2 i hi k hir
  · intro hsmall i hi hil
    rw [planRanges_get]
    have hcs : total / n = 0 := Nat.div_eq_of_lt hsmall
    simp only [rangeStart, rangeStop, if_pos hil, hcs]
    omega

/-- Witness for C10 at the degenerate point `total = 2`, `workerCount = 5`:
range 0 is empty. -/
theorem c10_planRanges_degenerate_spec_witness :
    2 < 5 ∧ ∃ hi : 0 < (planRanges 2 5).length,
      ((planRanges 2 5).get ⟨0, hi⟩).2
        < (((planRanges 2 5).get ⟨0, hi⟩).1 : Int) := by
  refine ⟨by decide, by decide, ?_⟩
  exact (c10_planRanges_degenerate_spec 2 5 (by decide) (by decide)).2.2.2
    (by decide) 0 (by decide) (by decide)

end UpdateLocalRepo
